import Mathlib

/-!
Verification of the V8 ETW tracing subsystem (`src/tracing/etw-provider.{h,cc}`,
`src/tracing/etw-v8-provider.h` and the `V8Provider` emission code): a shallow
embedding of the provider enable-state machine, the registration latch, the
code-event translator with its per-isolate script de-duplication cache, the
UTF-8 name decoding performed on code-added notifications, and the fixed
event catalog with its call-site argument lists.

Machine integers are modelled as `Nat`; the source never relies on overflow
in the logic verified here (levels fit in 8 bits, keywords in 64 bits, and
all bitmask reasoning is pure `Nat.land`).
-/

namespace V8Etw

/-- Severity levels, from the `kLevel*` constants in `etw-provider.h`. -/
def kLevelNone : Nat := 0

/-- TRACE_LEVEL_INFO, `kLevelInfo` in `etw-provider.h`. -/
def kLevelInfo : Nat := 4

/-- TRACE_LEVEL_VERBOSE, `kLevelVerbose` in `etw-provider.h`. -/
def kLevelVerbose : Nat := 5

/-- `ProviderState` from `etw-provider.h`: the mutable state shared between the
controller callback and the emission call sites.  `enabled` is a `uint32_t` in
the source (zero means disabled), `level` a `uint8_t`, `keywords` a `uint64_t`,
and `provider_trait` a fixed 40-byte character buffer modelled as a byte list. -/
structure ProviderState where
  regHandle : Nat
  enabled : Nat
  level : Nat
  keywords : Nat
  provider_trait : List Nat
  deriving Repr, DecidableEq

/-- `EventInfo` from `etw-provider.h`: the identity of one event kind
(id, level, opcode, task, keywords). -/
structure EventInfo where
  id : Nat
  level : Nat
  opcode : Nat
  task : Nat
  keywords : Nat
  deriving Repr, DecidableEq

/-- `EtwProvider::IsEnabled()` (no-argument overload) from `etw-provider.h`:
`if (V8_LIKELY(!state.enabled)) return false; return true;`. -/
def IsEnabled (s : ProviderState) : Bool :=
  if s.enabled = 0 then false else true

/-- `EtwProvider::IsEnabled(const EventInfo&)` from `etw-provider.h`:
```
if (V8_LIKELY(!state.enabled)) return false;
if (event.level > state.level) return false;
return event.keywords == 0 || (event.keywords & state.keywords);
```
The final expression converts the `uint64_t` bitwise-and to `bool`
(non-zero means true). -/
def IsEnabledEvent (s : ProviderState) (event : EventInfo) : Bool :=
  if s.enabled = 0 then false
  else if event.level > s.level then false
  else if event.keywords = 0 then true
  else if Nat.land event.keywords s.keywords ≠ 0 then true else false

/-- `EtwProvider::UpdateState` from `etw-provider.h`: assigns `level`,
`keywords` and `enabled` (the `bool` argument is stored into the `uint32_t`
field, so it becomes 1 or 0); `regHandle` and `provider_trait` are untouched. -/
def UpdateState (s : ProviderState) (isEnabledArg : Bool) (level : Nat)
    (keywords : Nat) : ProviderState :=
  { s with
    level := level
    keywords := keywords
    enabled := if isEnabledArg then 1 else 0 }

/-- `EtwProvider::Callback` from `etw-provider.cc`: dispatches on
`providerState` — 0 (Disabled) resets everything via `UpdateState(false,0,0)`,
1 (Enabled) records the session's `level` and `matchAnyKeyword` via
`UpdateState(true, level, matchAnyKeyword)`, and any other value is ignored.
`allKeyword` is received but never used. -/
def Callback (s : ProviderState) (providerState : Nat) (level : Nat)
    (matchAnyKeyword : Nat) (allKeyword : Nat) : ProviderState :=
  match providerState with
  | 0 => UpdateState s false 0 0
  | 1 => UpdateState s true level matchAnyKeyword
  | _ => s

/-- The provider name `"V8.js"` from `etw-v8-provider.h` (`kProviderName`),
as its character bytes. -/
def kProviderName : List Nat := [0x56, 0x38, 0x2E, 0x6A, 0x73]

/-- The provider-traits bytes written by `EtwProvider::Register`: a
little-endian `uint16_t` total size (`sizeof(uint16_t) + strlen(name) + 1`)
followed by the null-terminated provider name. -/
def ProviderTraitBytes (name : List Nat) : List Nat :=
  let trait_size := 2 + name.length + 1
  [trait_size % 256, trait_size / 256] ++ name ++ [0]

/-- The process-wide context in which `EtwProvider::Register` runs: the
provider's `ProviderState`, the function-local `static uint32_t hr` latch
(`none` until its initializer has run once), and the external backend viewed
as a call counter plus a supply of fresh registration handles. -/
structure RegWorld where
  prov : ProviderState
  latch : Option Nat
  backendRegs : Nat
  nextHandle : Nat
  deriving Repr, DecidableEq

/-- Modelled from the spec: the OS backend registration call `EventRegister`
(§6 outbound interface, `(provider_guid, name) → registration_handle |
failure_code`), external to this repository.  One call stores a fresh handle
through the out-parameter into `state.regHandle` and returns a status code
(success, i.e. 0, in this model). -/
def EventRegister (w : RegWorld) : Nat × RegWorld :=
  (0, { w with
        prov := { w.prov with regHandle := w.nextHandle }
        backendRegs := w.backendRegs + 1
        nextHandle := w.nextHandle + 1 })

/-- `EtwProvider::Register` from `etw-provider.cc`: the `EventRegister` call
is the initializer of a function-local `static uint32_t hr`, so it executes
only on the first call and every later call reuses the latched status; the
provider-traits buffer is (re)written on every call. -/
def Register (w : RegWorld) (providerName : List Nat) : Nat × RegWorld :=
  match w.latch with
  | some hr =>
      (hr, { w with
             prov := { w.prov with
                       provider_trait := ProviderTraitBytes providerName } })
  | none =>
      let r := EventRegister w
      (r.1, { r.2 with
              latch := some r.1
              prov := { r.2.prov with
                        provider_trait := ProviderTraitBytes providerName } })

/-- `n` successive calls to `EtwProvider::Register` with the same name. -/
def RegisterN : Nat → RegWorld → List Nat → RegWorld
  | 0, w, _ => w
  | n + 1, w, name => RegisterN n (Register w name).2 name

/-- Modelled from the spec: well-formedness of a byte span as UTF-8 (§4.4
step 3 interprets `raw_name` as UTF-8; the decoding API itself is external to
this repository).  Canonical forms only: no overlong sequences, no surrogate
code points, nothing above U+10FFFF. -/
def Utf8Valid : List Nat → Bool
  | [] => true
  | b0 :: rest =>
    if b0 < 0x80 then Utf8Valid rest
    else if ¬(0xC0 ≤ b0 ∧ b0 < 0xF8) then false
    else
      match rest with
      | [] => false
      | b1 :: rest1 =>
        if 0xC0 ≤ b0 ∧ b0 < 0xE0 then
          decide (0xC2 ≤ b0 ∧ 0x80 ≤ b1 ∧ b1 < 0xC0) && Utf8Valid rest1
        else
          match rest1 with
          | [] => false
          | b2 :: rest2 =>
            if 0xE0 ≤ b0 ∧ b0 < 0xF0 then
              decide ((0x80 ≤ b1 ∧ b1 < 0xC0) ∧ (0x80 ≤ b2 ∧ b2 < 0xC0) ∧
                0x800 ≤ (b0 - 0xE0) * 0x1000 + (b1 - 0x80) * 0x40 + (b2 - 0x80) ∧
                ¬(0xD800 ≤ (b0 - 0xE0) * 0x1000 + (b1 - 0x80) * 0x40 + (b2 - 0x80) ∧
                  (b0 - 0xE0) * 0x1000 + (b1 - 0x80) * 0x40 + (b2 - 0x80) < 0xE000)) &&
                Utf8Valid rest2
            else
              match rest2 with
              | [] => false
              | b3 :: rest3 =>
                decide ((0x80 ≤ b1 ∧ b1 < 0xC0) ∧ (0x80 ≤ b2 ∧ b2 < 0xC0) ∧
                  (0x80 ≤ b3 ∧ b3 < 0xC0) ∧
                  0x10000 ≤ (b0 - 0xF0) * 0x40000 + (b1 - 0x80) * 0x1000 +
                    (b2 - 0x80) * 0x40 + (b3 - 0x80) ∧
                  (b0 - 0xF0) * 0x40000 + (b1 - 0x80) * 0x1000 +
                    (b2 - 0x80) * 0x40 + (b3 - 0x80) < 0x110000) &&
                  Utf8Valid rest3

/-- Modelled from the spec: UTF-8 decoding to code points.  On well-formed
input it yields the encoded code points; an invalid or truncated sequence
yields the U+FFFD replacement character (resynchronizing after the consumed
bytes — the replacement placement on invalid input is an approximation of
the external decoding API, which no verified property depends on, since the
round-trip claim concerns well-formed input only). -/
def Utf8DecodeLossy : List Nat → List Nat
  | [] => []
  | b0 :: rest =>
    if b0 < 0x80 then b0 :: Utf8DecodeLossy rest
    else if ¬(0xC0 ≤ b0 ∧ b0 < 0xF8) then 0xFFFD :: Utf8DecodeLossy rest
    else
      match rest with
      | [] => [0xFFFD]
      | b1 :: rest1 =>
        if 0xC0 ≤ b0 ∧ b0 < 0xE0 then
          (if 0xC2 ≤ b0 ∧ 0x80 ≤ b1 ∧ b1 < 0xC0 then
            (b0 - 0xC0) * 0x40 + (b1 - 0x80)
           else 0xFFFD) :: Utf8DecodeLossy rest1
        else
          match rest1 with
          | [] => [0xFFFD]
          | b2 :: rest2 =>
            if 0xE0 ≤ b0 ∧ b0 < 0xF0 then
              (if (0x80 ≤ b1 ∧ b1 < 0xC0) ∧ (0x80 ≤ b2 ∧ b2 < 0xC0) ∧
                  0x800 ≤ (b0 - 0xE0) * 0x1000 + (b1 - 0x80) * 0x40 + (b2 - 0x80) ∧
                  ¬(0xD800 ≤ (b0 - 0xE0) * 0x1000 + (b1 - 0x80) * 0x40 + (b2 - 0x80) ∧
                    (b0 - 0xE0) * 0x1000 + (b1 - 0x80) * 0x40 + (b2 - 0x80) < 0xE000) then
                (b0 - 0xE0) * 0x1000 + (b1 - 0x80) * 0x40 + (b2 - 0x80)
               else 0xFFFD) :: Utf8DecodeLossy rest2
            else
              match rest2 with
              | [] => [0xFFFD]
              | b3 :: rest3 =>
                (if (0x80 ≤ b1 ∧ b1 < 0xC0) ∧ (0x80 ≤ b2 ∧ b2 < 0xC0) ∧
                    (0x80 ≤ b3 ∧ b3 < 0xC0) ∧
                    0x10000 ≤ (b0 - 0xF0) * 0x40000 + (b1 - 0x80) * 0x1000 +
                      (b2 - 0x80) * 0x40 + (b3 - 0x80) ∧
                    (b0 - 0xF0) * 0x40000 + (b1 - 0x80) * 0x1000 +
                      (b2 - 0x80) * 0x40 + (b3 - 0x80) < 0x110000 then
                  (b0 - 0xF0) * 0x40000 + (b1 - 0x80) * 0x1000 +
                    (b2 - 0x80) * 0x40 + (b3 - 0x80)
                 else 0xFFFD) :: Utf8DecodeLossy rest3

/-- UTF-16 encoding of one code point: a single unit below U+10000, a
surrogate pair above. -/
def Utf16EncodeChar (c : Nat) : List Nat :=
  if c < 0x10000 then [c]
  else [0xD800 + (c - 0x10000) / 0x400, 0xDC00 + (c - 0x10000) % 0x400]

/-- UTF-16 encoding of a code-point sequence. -/
def Utf16Encode : List Nat → List Nat
  | [] => []
  | c :: cs => Utf16EncodeChar c ++ Utf16Encode cs

/-- UTF-16 decoding of a unit sequence back to code points (`none` on a
malformed surrogate). -/
def Utf16Decode : List Nat → Option (List Nat)
  | [] => some []
  | w0 :: rest =>
    if w0 < 0xD800 ∨ 0xE000 ≤ w0 then (Utf16Decode rest).map (w0 :: ·)
    else if w0 < 0xDC00 then
      match rest with
      | w1 :: rest1 =>
        if 0xDC00 ≤ w1 ∧ w1 < 0xE000 then
          (Utf16Decode rest1).map
            ((0x10000 + (w0 - 0xD800) * 0x400 + (w1 - 0xDC00)) :: ·)
        else none
      | [] => none
    else none

/-- UTF-8 encoding of one code point. -/
def Utf8EncodeChar (c : Nat) : List Nat :=
  if c < 0x80 then [c]
  else if c < 0x800 then [0xC0 + c / 0x40, 0x80 + c % 0x40]
  else if c < 0x10000 then
    [0xE0 + c / 0x1000, 0x80 + c / 0x40 % 0x40, 0x80 + c % 0x40]
  else
    [0xF0 + c / 0x40000, 0x80 + c / 0x1000 % 0x40, 0x80 + c / 0x40 % 0x40,
      0x80 + c % 0x40]

/-- UTF-8 encoding of a code-point sequence. -/
def Utf8Encode : List Nat → List Nat
  | [] => []
  | c :: cs => Utf8EncodeChar c ++ Utf8Encode cs

/-- A Unicode scalar value: below U+110000 and not a surrogate. -/
def ScalarOk (c : Nat) : Prop := c < 0x110000 ∧ ¬(0xD800 ≤ c ∧ c < 0xE000)

/-- Modelled from the spec: `MultiByteToWideChar(CP_UTF8, 0, str, len, ...)`
as called in `V8Provider::LogCodeEvent` — decode the raw byte span as UTF-8
into UTF-16 code units (the Windows API is external to this repository;
§4.4 step 3 of the spec describes the decode). -/
def MultiByteToWideChar (bytes : List Nat) : List Nat :=
  Utf16Encode (Utf8DecodeLossy bytes)

/-- The `std::wstring method_name(name_len + 1, '\0')` buffer after the
`MultiByteToWideChar` call in `V8Provider::LogCodeEvent`: the decoded UTF-16
units at the front, the remainder of the `name_len + 1` wide characters left
as the `'\0'` fill. -/
def MethodNameBuffer (bytes : List Nat) : List Nat :=
  MultiByteToWideChar bytes ++
    List.replicate (bytes.length + 1 - (MultiByteToWideChar bytes).length) 0

/-- `v8::JitCodeEvent::CodeType` (only the distinction used by the source
matters: `JIT_CODE` versus everything else). -/
inductive CodeType where
  | JIT_CODE
  | BYTE_CODE
  deriving Repr, DecidableEq

/-- `v8::JitCodeEvent::EventType` values dispatched on by the source. -/
inductive EventType where
  | CODE_ADDED
  | CODE_MOVED
  | CODE_REMOVED
  | CODE_ADD_LINE_POS_INFO
  deriving Repr, DecidableEq

/-- The script name object returned by `Script::GetScriptName()`: either a
`v8::String` (whose UTF-16 contents `v8::String::Write` produces) or some
non-string value (`IsString()` false). -/
inductive ScriptNameValue where
  | str (units : List Nat)
  | notStr
  deriving Repr, DecidableEq

/-- The slice of `v8::Script` the translator reads: `GetId()` and
`GetScriptName()`. -/
structure ScriptHandle where
  id : Nat
  name : ScriptNameValue
  deriving Repr, DecidableEq

/-- `v8::JitCodeEvent` as consumed by `V8Provider::LogCodeEvent`: code type,
event type, the isolate pointer (an opaque identity, modelled as `Nat`), code
start/length, the unterminated UTF-8 name span, and the optional script
(`event->script.IsEmpty()` is `script = none`). -/
structure JitCodeEvent where
  code_type : CodeType
  type : EventType
  isolate : Nat
  code_start : Nat
  code_len : Nat
  name : List Nat
  script : Option ScriptHandle
  deriving Repr, DecidableEq

/-- One inner `std::unordered_map<int, std::wstring>` of the script cache:
script id to resolved wide name, as an association list. -/
def InnerScriptMap : Type := List (Nat × List Nat)

instance : DecidableEq InnerScriptMap := by
  unfold InnerScriptMap
  infer_instance

/-- `ScriptMapType = std::unordered_map<void*, std::unordered_map<int,
std::wstring>>` from `etw-v8-provider.h`, as an association list keyed by the
isolate pointer. -/
def ScriptMapType : Type := List (Nat × InnerScriptMap)

instance : DecidableEq ScriptMapType := by
  unfold ScriptMapType
  infer_instance

/-- `find` on the inner script map. -/
def LookupScript : InnerScriptMap → Nat → Option (List Nat)
  | [], _ => none
  | (k, v) :: rest, sid => if k = sid then some v else LookupScript rest sid

/-- Lookup of an isolate's inner map. -/
def LookupIsolate : ScriptMapType → Nat → Option InnerScriptMap
  | [], _ => none
  | (k, v) :: rest, iso => if k = iso then some v else LookupIsolate rest iso

/-- Store an isolate's inner map, as `operator[]` assigning through the
reference does: replace the existing binding or create a new one. -/
def SetIsolate : ScriptMapType → Nat → InnerScriptMap → ScriptMapType
  | [], iso, inner => [(iso, inner)]
  | (k, v) :: rest, iso, inner =>
    if k = iso then (iso, inner) :: rest else (k, v) :: SetIsolate rest iso inner

/-- Lookup of `(isolate, script_id)` across both cache levels. -/
def LookupCache (m : ScriptMapType) (iso sid : Nat) : Option (List Nat) :=
  match LookupIsolate m iso with
  | none => none
  | some inner => LookupScript inner sid

/-- The wide-string literal `L"[unknown]"` used as the fallback script name. -/
def kUnknownName : List Nat :=
  [0x5B, 0x75, 0x6E, 0x6B, 0x6E, 0x6F, 0x77, 0x6E, 0x5D]

/-- The script display name cached and logged on a cache miss in
`V8Provider::LogCodeEvent`: the string's UTF-16 contents when
`script_name->IsString()`, otherwise the `L"[unknown]"` sentinel. -/
def ResolveScriptName : ScriptNameValue → List Nat
  | ScriptNameValue.str units => units
  | ScriptNameValue.notStr => kUnknownName

/-- The events `V8Provider::LogCodeEvent` hands to `LogEventData`: a
`SourceLoad` (SourceID, ScriptContextID, SourceFlags, Url) or a `MethodLoad`
(ScriptContextID, MethodStartAddress, MethodSize, MethodID, MethodFlags,
MethodAddressRangeID, SourceID, Line, Column, MethodName). -/
inductive EmittedEvent where
  | sourceLoad (sourceId : Nat) (scriptContextId : Nat) (sourceFlags : Nat)
      (url : List Nat)
  | methodLoad (scriptContextId : Nat) (methodStartAddress : Nat)
      (methodSize : Nat) (methodId : Nat) (methodFlags : Nat)
      (methodAddressRangeId : Nat) (sourceId : Nat) (line : Nat) (column : Nat)
      (methodName : List Nat)
  deriving Repr, DecidableEq

/-- Whether an emitted event is a `SourceLoad`. -/
def IsSourceLoad : EmittedEvent → Bool
  | EmittedEvent.sourceLoad .. => true
  | _ => false

/-- Whether an emitted event is a `MethodLoad`. -/
def IsMethodLoad : EmittedEvent → Bool
  | EmittedEvent.methodLoad .. => true
  | _ => false

/-- `V8Provider::LogCodeEvent` from `etw-v8-provider.cc`: returns the events
passed to `LogEventData`, in order, together with the updated script cache.
Non-`JIT_CODE` code types and non-`CODE_ADDED` event types produce nothing.
For `CODE_ADDED`: decode the name span; if a script is attached, look up
`(isolate, script_id)` — `(*isolate_script_map)[script_context]`
default-constructs the missing inner map — and on a miss resolve the script
name, cache it, and emit `SourceLoad`; finally always emit `MethodLoad`
(with `script_id` 0 when no script is attached). -/
def LogCodeEvent (m : ScriptMapType) (event : JitCodeEvent) :
    List EmittedEvent × ScriptMapType :=
  if event.code_type ≠ CodeType.JIT_CODE then ([], m)
  else if event.type ≠ EventType.CODE_ADDED then ([], m)
  else
    let method_name := MethodNameBuffer event.name
    let script_context := event.isolate
    match event.script with
    | none =>
        ([EmittedEvent.methodLoad script_context event.code_start
            event.code_len 0 0 0 0 0 0 method_name], m)
    | some script =>
        let script_id := script.id
        let inner := (LookupIsolate m script_context).getD []
        match LookupScript inner script_id with
        | some _ =>
            ([EmittedEvent.methodLoad script_context event.code_start
                event.code_len 0 0 0 script_id 0 0 method_name],
              SetIsolate m script_context inner)
        | none =>
            let url := ResolveScriptName script.name
            let inner2 := (script_id, url) :: inner
            ([EmittedEvent.sourceLoad script_id script_context 0 url,
              EmittedEvent.methodLoad script_context event.code_start
                event.code_len 0 0 0 script_id 0 0 method_name],
              SetIsolate m script_context inner2)

/-- `V8Provider::CodeEventHandler` from `etw-v8-provider.cc`:
`if (!v8Provider.IsEnabled() || v8Provider.Level() < kLevelInfo) return;`
then `LogCodeEvent`. -/
def CodeEventHandler (s : ProviderState) (m : ScriptMapType)
    (event : JitCodeEvent) : List EmittedEvent × ScriptMapType :=
  if !IsEnabled s || decide (s.level < kLevelInfo) then ([], m)
  else LogCodeEvent m event

/-- Successive `LogCodeEvent` calls over a notification sequence,
concatenating the emitted events and threading the cache. -/
def RunEvents : ScriptMapType → List JitCodeEvent → List EmittedEvent × ScriptMapType
  | m, [] => ([], m)
  | m, e :: es =>
    let r := LogCodeEvent m e
    let rs := RunEvents r.2 es
    (r.1 ++ rs.1, rs.2)

/-- The `V8Provider`-level state: the base provider's registration context
plus the `isolate_script_map` pointer (`none` before `RegisterEtwProvider`
first allocates it). -/
structure V8ProviderWorld where
  reg : RegWorld
  isolate_script_map : Option ScriptMapType
  deriving DecidableEq

/-- `V8Provider::RegisterEtwProvider` from `etw-v8-provider.h`:
`isolate_script_map = new ScriptMapType();` (a fresh empty cache, replacing
whatever the pointer held) followed by `Register(kChakraGuid, kProviderName)`. -/
def RegisterEtwProvider (w : V8ProviderWorld) : V8ProviderWorld :=
  { reg := (Register w.reg kProviderName).2
    isolate_script_map := some [] }

/-- A JIT code-added notification referencing the `(isolate, script_id)`
pair: `code_type == JIT_CODE`, `type == CODE_ADDED`, the given isolate, and a
non-empty script handle with the given id. -/
def SameScriptAdded (iso sid : Nat) (e : JitCodeEvent) : Prop :=
  e.code_type = CodeType.JIT_CODE ∧ e.type = EventType.CODE_ADDED ∧
    e.isolate = iso ∧ ∃ s, e.script = some s ∧ s.id = sid

/-- The C++ parameter types appearing in `V8Provider`'s public operations. -/
inductive CppParam where
  | voidPtr
  | constCharPtr
  | int
  | constStdStringRef
  | jitCodeEventPtr
  deriving Repr, DecidableEq

/-- The public operations of `V8Provider` (both build variants declare this
set of names). -/
inductive V8ProviderOp where
  | registerEtwProviderOp
  | unregisterEtwProviderOp
  | msgOp
  | initializePlatformOp
  | shutdownPlatformOp
  | initializeV8Op
  | tearDownV8Op
  | isolateStartOp
  | isolateStopOp
  | snapshotInitStartOp
  | snapshotInitStopOp
  | parsingStartOp
  | parsingStopOp
  | generateUnoptimizedCodeStartOp
  | generateUnoptimizedCodeStopOp
  | jitExecuteStartOp
  | jitExecuteStopOp
  | jitFinalizeStartOp
  | jitFinalizeStopOp
  | concurrentMarkingStartOp
  | concurrentMarkingStopOp
  | deoptOp
  | disableOptOp
  | codeEventHandlerOp
  deriving Repr, DecidableEq

/-- Every public operation of `V8Provider`. -/
def allV8ProviderOps : List V8ProviderOp :=
  [.registerEtwProviderOp, .unregisterEtwProviderOp, .msgOp,
   .initializePlatformOp, .shutdownPlatformOp, .initializeV8Op, .tearDownV8Op,
   .isolateStartOp, .isolateStopOp, .snapshotInitStartOp, .snapshotInitStopOp,
   .parsingStartOp, .parsingStopOp, .generateUnoptimizedCodeStartOp,
   .generateUnoptimizedCodeStopOp, .jitExecuteStartOp, .jitExecuteStopOp,
   .jitFinalizeStartOp, .jitFinalizeStopOp, .concurrentMarkingStartOp,
   .concurrentMarkingStopOp, .deoptOp, .disableOptOp, .codeEventHandlerOp]

/-- Parameter lists of the fully functional (ETW) variant of `V8Provider`,
transcribed from the first branch of `etw-v8-provider.h`. -/
def etwVariantParams : V8ProviderOp → List CppParam
  | .registerEtwProviderOp => []
  | .unregisterEtwProviderOp => []
  | .msgOp => [.constCharPtr]
  | .initializePlatformOp => []
  | .shutdownPlatformOp => []
  | .initializeV8Op => []
  | .tearDownV8Op => []
  | .isolateStartOp => [.voidPtr]
  | .isolateStopOp => [.voidPtr]
  | .snapshotInitStartOp => [.voidPtr]
  | .snapshotInitStopOp => [.voidPtr]
  | .parsingStartOp => [.voidPtr]
  | .parsingStopOp => [.voidPtr]
  | .generateUnoptimizedCodeStartOp => [.voidPtr]
  | .generateUnoptimizedCodeStopOp => [.voidPtr]
  | .jitExecuteStartOp => []
  | .jitExecuteStopOp => []
  | .jitFinalizeStartOp => []
  | .jitFinalizeStopOp => []
  | .concurrentMarkingStartOp => []
  | .concurrentMarkingStopOp => []
  | .deoptOp => [.constStdStringRef, .constStdStringRef, .constStdStringRef,
      .constStdStringRef, .int, .int]
  | .disableOptOp => [.constStdStringRef, .constStdStringRef]
  | .codeEventHandlerOp => [.jitCodeEventPtr]

/-- Parameter lists of the compile-time no-op (NO_ETW) variant of
`V8Provider`, transcribed from the second branch of `etw-v8-provider.h`. -/
def noEtwVariantParams : V8ProviderOp → List CppParam
  | .registerEtwProviderOp => []
  | .unregisterEtwProviderOp => []
  | .msgOp => [.constCharPtr]
  | .initializePlatformOp => []
  | .shutdownPlatformOp => []
  | .initializeV8Op => []
  | .tearDownV8Op => []
  | .isolateStartOp => [.voidPtr]
  | .isolateStopOp => [.voidPtr]
  | .snapshotInitStartOp => [.voidPtr]
  | .snapshotInitStopOp => [.voidPtr]
  | .parsingStartOp => [.constCharPtr, .int]
  | .parsingStopOp => []
  | .generateUnoptimizedCodeStartOp => []
  | .generateUnoptimizedCodeStopOp => []
  | .jitExecuteStartOp => []
  | .jitExecuteStopOp => []
  | .jitFinalizeStartOp => []
  | .jitFinalizeStopOp => []
  | .concurrentMarkingStartOp => []
  | .concurrentMarkingStopOp => []
  | .deoptOp => [.constStdStringRef, .constStdStringRef, .constStdStringRef,
      .constStdStringRef, .int, .int]
  | .disableOptOp => [.constStdStringRef, .constStdStringRef]
  | .codeEventHandlerOp => [.jitCodeEventPtr]

/-- The declared `Field` payload types from `etw-metadata.h`'s `kType*`
constants, as used at the emission call sites. -/
inductive FieldType where
  | unicodeStr
  | ansiStr
  | int32
  | uint16
  | uint32
  | uint64
  | pointer
  deriving Repr, DecidableEq

/-- The static C++ types of the trailing arguments actually passed to
`LogEventData` at each call site (after the explicit casts written there).
`fieldLiteral` is a `Field(...)` struct value passed as a payload argument. -/
inductive ArgType where
  | constCharPtrArg
  | voidPtrArg
  | stdStringArg
  | stdWStringArg
  | uint64Arg
  | uint32Arg
  | uint16Arg
  | intArg
  | fieldLiteral
  deriving Repr, DecidableEq

/-- The emission call sites of `V8Provider`'s fixed event catalog in
`etw-v8-provider.cc`. -/
inductive CallSite where
  | msgSite
  | initializePlatformSite
  | shutdownPlatformSite
  | initializeV8Site
  | tearDownV8Site
  | isolateStartSite
  | isolateStopSite
  | snapshotInitStartSite
  | snapshotInitStopSite
  | parsingStartSite
  | parsingStopSite
  | generateUnoptimizedCodeStartSite
  | generateUnoptimizedCodeStopSite
  | jitExecuteStartSite
  | jitExecuteStopSite
  | jitFinalizeStartSite
  | jitFinalizeStopSite
  | deoptSite
  | disableOptSite
  | sourceLoadSite
  | methodLoadSite
  deriving Repr, DecidableEq

/-- Every emission call site. -/
def allCallSites : List CallSite :=
  [.msgSite, .initializePlatformSite, .shutdownPlatformSite, .initializeV8Site,
   .tearDownV8Site, .isolateStartSite, .isolateStopSite, .snapshotInitStartSite,
   .snapshotInitStopSite, .parsingStartSite, .parsingStopSite,
   .generateUnoptimizedCodeStartSite, .generateUnoptimizedCodeStopSite,
   .jitExecuteStartSite, .jitExecuteStopSite, .jitFinalizeStartSite,
   .jitFinalizeStopSite, .deoptSite, .disableOptSite, .sourceLoadSite,
   .methodLoadSite]

/-- The `EventMetadata` field sequence declared at each call site in
`etw-v8-provider.cc`. -/
def metadataFields : CallSite → List FieldType
  | .msgSite => [.ansiStr]
  | .initializePlatformSite => []
  | .shutdownPlatformSite => []
  | .initializeV8Site => []
  | .tearDownV8Site => []
  | .isolateStartSite => [.pointer]
  | .isolateStopSite => [.pointer]
  | .snapshotInitStartSite => [.pointer]
  | .snapshotInitStopSite => [.pointer]
  | .parsingStartSite => [.pointer]
  | .parsingStopSite => [.pointer]
  | .generateUnoptimizedCodeStartSite => [.pointer]
  | .generateUnoptimizedCodeStopSite => [.pointer]
  | .jitExecuteStartSite => []
  | .jitExecuteStopSite => []
  | .jitFinalizeStartSite => []
  | .jitFinalizeStopSite => []
  | .deoptSite => [.ansiStr, .ansiStr, .ansiStr, .ansiStr, .int32, .int32]
  | .disableOptSite => []
  | .sourceLoadSite => [.uint64, .pointer, .uint32, .unicodeStr]
  | .methodLoadSite => [.pointer, .pointer, .uint64, .uint32, .uint16,
      .uint16, .uint64, .uint32, .uint32, .unicodeStr]

/-- The payload arguments passed to `LogEventData` at each call site in
`etw-v8-provider.cc` (the arguments after the descriptor and metadata
pointers), with their static types after the casts written at the site. -/
def logEventDataArgs : CallSite → List ArgType
  | .msgSite => [.constCharPtrArg]
  | .initializePlatformSite => []
  | .shutdownPlatformSite => []
  | .initializeV8Site => []
  | .tearDownV8Site => []
  | .isolateStartSite => [.voidPtrArg]
  | .isolateStopSite => [.voidPtrArg]
  | .snapshotInitStartSite => [.voidPtrArg]
  | .snapshotInitStopSite => [.voidPtrArg]
  | .parsingStartSite => [.voidPtrArg]
  | .parsingStopSite => [.voidPtrArg]
  | .generateUnoptimizedCodeStartSite => [.voidPtrArg]
  | .generateUnoptimizedCodeStopSite => [.voidPtrArg]
  | .jitExecuteStartSite => []
  | .jitExecuteStopSite => []
  | .jitFinalizeStartSite => []
  | .jitFinalizeStopSite => []
  | .deoptSite => [.stdStringArg, .stdStringArg, .stdStringArg, .stdStringArg,
      .intArg, .intArg]
  | .disableOptSite => [.fieldLiteral, .fieldLiteral]
  | .sourceLoadSite => [.uint64Arg, .voidPtrArg, .uint32Arg, .stdWStringArg]
  | .methodLoadSite => [.voidPtrArg, .voidPtrArg, .uint64Arg, .uint32Arg,
      .uint16Arg, .uint16Arg, .uint64Arg, .uint32Arg, .uint32Arg,
      .stdWStringArg]

/-- Whether one passed argument's static type is the marshalling type the
declared field type expects at the encoding boundary. -/
def ArgMatchesField : ArgType → FieldType → Bool
  | .constCharPtrArg, .ansiStr => true
  | .stdStringArg, .ansiStr => true
  | .stdWStringArg, .unicodeStr => true
  | .voidPtrArg, .pointer => true
  | .uint64Arg, .uint64 => true
  | .uint32Arg, .uint32 => true
  | .uint16Arg, .uint16 => true
  | .intArg, .int32 => true
  | _, _ => false

/-- Whether a call site's argument list matches its declared metadata field
sequence in count, order and declared type. -/
def SiteMatches (s : CallSite) : Bool :=
  (logEventDataArgs s).length == (metadataFields s).length &&
    (List.zip (logEventDataArgs s) (metadataFields s)).all
      fun p => ArgMatchesField p.1 p.2

end V8Etw

namespace V8Etw

/-- C2: `IsEnabled(event)` is true exactly when the provider is enabled, the
event's level is at most the session level, and the event's keywords are zero
or intersect the session keyword mask; in particular a disabled provider
rejects every event. -/
theorem isEnabledEvent_spec (s : ProviderState) (e : EventInfo) :
    (IsEnabledEvent s e = true ↔
      (s.enabled ≠ 0 ∧ e.level ≤ s.level ∧
        (e.keywords = 0 ∨ Nat.land e.keywords s.keywords ≠ 0))) ∧
    (s.enabled = 0 → IsEnabledEvent s e = false) := by
  constructor
  · unfold IsEnabledEvent
    split_ifs with h1 h2 h3 h4
    · constructor
      · intro h; simp at h
      · rintro ⟨he, -, -⟩; exact absurd h1 he
    · constructor
      · intro h; simp at h
      · rintro ⟨-, hlev, -⟩; omega
    · constructor
      · intro _; exact ⟨h1, by omega, Or.inl h3⟩
      · intro _; rfl
    · constructor
      · intro _; exact ⟨h1, by omega, Or.inr h4⟩
      · intro _; rfl
    · constructor
      · intro h; simp at h
      · rintro ⟨-, -, hk⟩
        cases hk with
        | inl h => exact absurd h h3
        | inr h => exact absurd h h4
  · intro h
    unfold IsEnabledEvent
    simp [h]

/-- Closed instance of `isEnabledEvent_spec` at a concrete state and event. -/
theorem isEnabledEvent_spec_witness :
    (IsEnabledEvent ⟨1, 1, 4, 0xF, []⟩ ⟨9, 4, 10, 1, 0x2⟩ = true ↔
      ((1 : Nat) ≠ 0 ∧ (4 : Nat) ≤ 4 ∧
        ((0x2 : Nat) = 0 ∨ Nat.land 0x2 0xF ≠ 0))) ∧
    ((1 : Nat) = 0 → IsEnabledEvent ⟨1, 1, 4, 0xF, []⟩ ⟨9, 4, 10, 1, 0x2⟩ = false) :=
  isEnabledEvent_spec ⟨1, 1, 4, 0xF, []⟩ ⟨9, 4, 10, 1, 0x2⟩

/-- C3: the controller callback records `(level, matchAnyKeyword)` verbatim on
`Enabled` (1), zeroes the enabled flag, level and keyword mask on `Disabled`
(0) — after which `IsEnabled(event)` is false for any event with non-zero
level and keywords — and leaves the state unchanged for every other
`providerState` value.  `regHandle` and `provider_trait` are never touched. -/
theorem callback_spec (s : ProviderState) (l k a : Nat) :
    (Callback s 1 l k a =
      { s with enabled := 1, level := l, keywords := k }) ∧
    (Callback s 0 l k a =
      { s with enabled := 0, level := 0, keywords := 0 }) ∧
    (∀ ps, ps ≠ 0 → ps ≠ 1 → Callback s ps l k a = s) ∧
    (∀ e : EventInfo, e.level ≠ 0 → e.keywords ≠ 0 →
      IsEnabledEvent (Callback s 0 l k a) e = false) := by
  refine ⟨rfl, rfl, ?_, ?_⟩
  · intro ps h0 h1
    unfold Callback
    match ps, h0, h1 with
    | n + 2, _, _ => rfl
  · intro e _ _
    simp [Callback, UpdateState, IsEnabledEvent]

/-- C4: at the emission call sites of `V8Provider`'s fixed event catalog, the
arguments passed to `LogEventData` match the declared `EventMetadata` field
sequence in count, order and type at every site except `LogDisableOpt`, whose
metadata declares zero fields while the call passes two `Field(...)` literals
as payload arguments (and never passes `fn_name`/`reason` at all) — the
schema-match contract the spec states is violated at that site. -/
theorem logDisableOpt_schema_mismatch :
    ((allCallSites.filter fun s => s ≠ CallSite.disableOptSite).all
      SiteMatches = true) ∧
    SiteMatches CallSite.disableOptSite = false ∧
    (metadataFields CallSite.disableOptSite).length = 0 ∧
    (logEventDataArgs CallSite.disableOptSite).length = 2 := by
  decide

/-- C8: the compile-time no-op variant of `V8Provider` does not expose
identical call signatures — `ParsingStart`, `ParsingStop`,
`GenerateUnoptimizedCodeStart` and `GenerateUnoptimizedCodeStop` take
different parameter lists in the two variants, while every other public
operation matches. -/
theorem noEtw_signature_mismatch :
    etwVariantParams V8ProviderOp.parsingStartOp ≠
      noEtwVariantParams V8ProviderOp.parsingStartOp ∧
    etwVariantParams V8ProviderOp.parsingStopOp ≠
      noEtwVariantParams V8ProviderOp.parsingStopOp ∧
    etwVariantParams V8ProviderOp.generateUnoptimizedCodeStartOp ≠
      noEtwVariantParams V8ProviderOp.generateUnoptimizedCodeStartOp ∧
    etwVariantParams V8ProviderOp.generateUnoptimizedCodeStopOp ≠
      noEtwVariantParams V8ProviderOp.generateUnoptimizedCodeStopOp ∧
    ((allV8ProviderOps.filter fun op =>
        op ∉ ([V8ProviderOp.parsingStartOp, V8ProviderOp.parsingStopOp,
          V8ProviderOp.generateUnoptimizedCodeStartOp,
          V8ProviderOp.generateUnoptimizedCodeStopOp] : List V8ProviderOp)).all
      fun op => etwVariantParams op == noEtwVariantParams op) = true := by
  decide

/-- A latched `Register` (the function-local static already initialized)
leaves the backend call count, the registration handle and the latch
untouched; only the provider-traits buffer is rewritten. -/
theorem register_latched (w : RegWorld) (name : List Nat) (hr : Nat)
    (h : w.latch = some hr) :
    (Register w name).2.backendRegs = w.backendRegs ∧
    (Register w name).2.prov.regHandle = w.prov.regHandle ∧
    (Register w name).2.latch = w.latch := by
  unfold Register
  rw [h]
  exact ⟨rfl, rfl, rfl⟩

/-- Iterating `Register` from a latched world changes neither the backend
call count nor the registration handle. -/
theorem registerN_latched (name : List Nat) :
    ∀ (n : Nat) (w : RegWorld) (hr : Nat), w.latch = some hr →
      (RegisterN n w name).backendRegs = w.backendRegs ∧
      (RegisterN n w name).prov.regHandle = w.prov.regHandle := by
  intro n
  induction n with
  | zero => intro w hr _; exact ⟨rfl, rfl⟩
  | succ m ih =>
    intro w hr h
    obtain ⟨e1, e2, e3⟩ := register_latched w name hr h
    have step : RegisterN (m + 1) w name = RegisterN m (Register w name).2 name := rfl
    rw [step]
    obtain ⟨f1, f2⟩ := ih (Register w name).2 hr (e3.trans h)
    exact ⟨f1.trans e1, f2.trans e2⟩

/-- C6: from an unregistered process state, any number `n ≥ 1` of calls to
`EtwProvider::Register` performs exactly one backend registration call and
leaves exactly one registration handle (the one the first call obtained) —
the function-local `static` latches the `EventRegister` call. -/
theorem register_idempotent_once (w0 : RegWorld) (name : List Nat) (n : Nat)
    (hlatch : w0.latch = none) (hregs : w0.backendRegs = 0) (hn : 1 ≤ n) :
    (RegisterN n w0 name).backendRegs = 1 ∧
    (RegisterN n w0 name).prov.regHandle = w0.nextHandle := by
  match n, hn with
  | m + 1, _ =>
    have step : RegisterN (m + 1) w0 name = RegisterN m (Register w0 name).2 name := rfl
    have hreg : (Register w0 name).2 =
        { prov := { w0.prov with
                    regHandle := w0.nextHandle
                    provider_trait := ProviderTraitBytes name }
          latch := some 0
          backendRegs := w0.backendRegs + 1
          nextHandle := w0.nextHandle + 1 } := by
      unfold Register EventRegister
      rw [hlatch]
    rw [step, hreg]
    obtain ⟨f1, f2⟩ := registerN_latched name m
      { prov := { w0.prov with
                  regHandle := w0.nextHandle
                  provider_trait := ProviderTraitBytes name }
        latch := some 0
        backendRegs := w0.backendRegs + 1
        nextHandle := w0.nextHandle + 1 } 0 rfl
    rw [f1, f2]
    simp [hregs]

/-- Closed instance of `register_idempotent_once`: three calls from a fresh
world leave one backend registration and the first handle. -/
theorem register_idempotent_once_witness :
    (RegisterN 3 ⟨⟨0, 0, 0, 0, []⟩, none, 0, 1⟩ kProviderName).backendRegs = 1 ∧
    (RegisterN 3 ⟨⟨0, 0, 0, 0, []⟩, none, 0, 1⟩ kProviderName).prov.regHandle = 1 :=
  register_idempotent_once ⟨⟨0, 0, 0, 0, []⟩, none, 0, 1⟩ kProviderName 3
    rfl rfl (by decide)

/-- C9: if the provider is enabled but its level is strictly below Info (4),
`V8Provider::CodeEventHandler` bails out before any work: no source-load or
method-load event is emitted and the script cache is untouched, even for a
notification the translator would otherwise log — a gate stricter than the
plain `IsEnabled()` check, which passes here. -/
theorem codeEventHandler_level_gate (s : ProviderState) (m : ScriptMapType)
    (e : JitCodeEvent) (hen : IsEnabled s = true) (hlev : s.level < kLevelInfo) :
    CodeEventHandler s m e = ([], m) := by
  unfold CodeEventHandler
  have hd : decide (s.level < kLevelInfo) = true := by simpa using hlev
  rw [hd]
  simp

/-- Closed instance of `codeEventHandler_level_gate` at an enabled provider
with level Warning (3) and a JIT code-added notification. -/
theorem codeEventHandler_level_gate_witness :
    CodeEventHandler ⟨5, 1, 3, 0xFF, []⟩ []
      ⟨CodeType.JIT_CODE, EventType.CODE_ADDED, 1, 0x1000, 64,
        [0x66, 0x6F, 0x6F], some ⟨7, ScriptNameValue.notStr⟩⟩ = ([], []) :=
  codeEventHandler_level_gate ⟨5, 1, 3, 0xFF, []⟩ []
    ⟨CodeType.JIT_CODE, EventType.CODE_ADDED, 1, 0x1000, 64,
      [0x66, 0x6F, 0x6F], some ⟨7, ScriptNameValue.notStr⟩⟩ rfl (by decide)

/-- A cache miss on `(isolate, script_id)` means the inner map obtained via
`operator[]` (empty when the isolate is new) has no entry for the script. -/
theorem lookupScript_getD_of_none {m : ScriptMapType} {iso sid : Nat}
    (h : LookupCache m iso sid = none) :
    LookupScript ((LookupIsolate m iso).getD []) sid = none := by
  unfold LookupCache at h
  cases hiso : LookupIsolate m iso with
  | none => simp [LookupScript]
  | some inner => rw [hiso] at h; simpa using h

/-- Storing an inner map under an isolate key makes it the one found for that
key. -/
theorem lookupIsolate_setIsolate (m : ScriptMapType) (iso : Nat)
    (inner : InnerScriptMap) :
    LookupIsolate (SetIsolate m iso inner) iso = some inner := by
  induction m with
  | nil => simp [SetIsolate, LookupIsolate]
  | cons kv rest ih =>
    by_cases h : kv.1 = iso
    · simp [SetIsolate, LookupIsolate, h]
    · simp [SetIsolate, LookupIsolate, h, ih]

/-- `LogCodeEvent` on a JIT code-added notification whose script misses the
cache: it emits the `SourceLoad` for the resolved name followed by the
`MethodLoad`, and afterwards the cache holds the resolved name. -/
theorem logCodeEvent_miss {m : ScriptMapType} {e : JitCodeEvent}
    {s : ScriptHandle}
    (hct : e.code_type = CodeType.JIT_CODE) (het : e.type = EventType.CODE_ADDED)
    (hs : e.script = some s)
    (hmiss : LookupCache m e.isolate s.id = none) :
    (LogCodeEvent m e).1 =
      [EmittedEvent.sourceLoad s.id e.isolate 0 (ResolveScriptName s.name),
       EmittedEvent.methodLoad e.isolate e.code_start e.code_len 0 0 0 s.id 0 0
         (MethodNameBuffer e.name)] ∧
    LookupCache (LogCodeEvent m e).2 e.isolate s.id =
      some (ResolveScriptName s.name) := by
  have hinner := lookupScript_getD_of_none hmiss
  unfold LogCodeEvent
  rw [hct, het, hs]
  simp only [ne_eq, not_true_eq_false, if_false, ite_false, reduceIte]
  rw [hinner]
  refine ⟨rfl, ?_⟩
  unfold LookupCache
  rw [lookupIsolate_setIsolate]
  simp [LookupScript]

/-- `LogCodeEvent` on a JIT code-added notification whose script hits the
cache: it emits only the `MethodLoad`, and the cache entry survives. -/
theorem logCodeEvent_hit {m : ScriptMapType} {e : JitCodeEvent}
    {s : ScriptHandle} {v : List Nat}
    (hct : e.code_type = CodeType.JIT_CODE) (het : e.type = EventType.CODE_ADDED)
    (hs : e.script = some s)
    (hhit : LookupCache m e.isolate s.id = some v) :
    (LogCodeEvent m e).1 =
      [EmittedEvent.methodLoad e.isolate e.code_start e.code_len 0 0 0 s.id 0 0
        (MethodNameBuffer e.name)] ∧
    LookupCache (LogCodeEvent m e).2 e.isolate s.id = some v := by
  unfold LookupCache at hhit
  cases hiso : LookupIsolate m e.isolate with
  | none => rw [hiso] at hhit; cases hhit
  | some inner =>
    have hhit2 : LookupScript inner s.id = some v := by
      rw [hiso] at hhit; exact hhit
    unfold LogCodeEvent
    rw [hct, het, hs]
    simp only [ne_eq, not_true_eq_false, if_false, ite_false, reduceIte]
    rw [hiso]
    simp only [Option.getD_some]
    rw [hhit2]
    refine ⟨rfl, ?_⟩
    show LookupCache (SetIsolate m e.isolate inner) e.isolate s.id = some v
    unfold LookupCache
    rw [lookupIsolate_setIsolate]
    exact hhit2

/-- C5: a code-added notification whose script's name object is not a string
produces a source-load event whose name is exactly the fixed `L"[unknown]"`
sentinel — the characters of the string `"[unknown]"`, never empty — and the
translator stays total (the failure is absorbed, not propagated). -/
theorem sourceLoad_unknown_sentinel (m : ScriptMapType) (e : JitCodeEvent)
    (s : ScriptHandle)
    (hct : e.code_type = CodeType.JIT_CODE) (het : e.type = EventType.CODE_ADDED)
    (hs : e.script = some s) (hname : s.name = ScriptNameValue.notStr)
    (hmiss : LookupCache m e.isolate s.id = none) :
    (LogCodeEvent m e).1 =
      [EmittedEvent.sourceLoad s.id e.isolate 0 kUnknownName,
       EmittedEvent.methodLoad e.isolate e.code_start e.code_len 0 0 0 s.id 0 0
         (MethodNameBuffer e.name)] ∧
    kUnknownName = "[unknown]".data.map Char.toNat ∧
    kUnknownName ≠ [] := by
  obtain ⟨h1, -⟩ := logCodeEvent_miss hct het hs hmiss
  rw [hname] at h1
  exact ⟨h1, by decide, by decide⟩

/-- Closed instance of `sourceLoad_unknown_sentinel` at a concrete
notification for script 7 of isolate 1 with a non-string name. -/
theorem sourceLoad_unknown_sentinel_witness :
    (LogCodeEvent []
      ⟨CodeType.JIT_CODE, EventType.CODE_ADDED, 1, 0x1000, 64,
        [0x66, 0x6F, 0x6F], some ⟨7, ScriptNameValue.notStr⟩⟩).1 =
      [EmittedEvent.sourceLoad 7 1 0 kUnknownName,
       EmittedEvent.methodLoad 1 0x1000 64 0 0 0 7 0 0
         (MethodNameBuffer [0x66, 0x6F, 0x6F])] ∧
    kUnknownName = "[unknown]".data.map Char.toNat ∧
    kUnknownName ≠ [] :=
  sourceLoad_unknown_sentinel []
    ⟨CodeType.JIT_CODE, EventType.CODE_ADDED, 1, 0x1000, 64,
      [0x66, 0x6F, 0x6F], some ⟨7, ScriptNameValue.notStr⟩⟩
    ⟨7, ScriptNameValue.notStr⟩ rfl rfl rfl rfl rfl

/-- Once the cache holds `(isolate, script_id)`, a run of further code-added
notifications for that pair emits no source-load event and exactly one
method-load event per notification, and the cache entry survives. -/
theorem runEvents_hit (iso sid : Nat) (v : List Nat) :
    ∀ (es : List JitCodeEvent) (m : ScriptMapType),
      (∀ e ∈ es, SameScriptAdded iso sid e) →
      LookupCache m iso sid = some v →
      (RunEvents m es).1.countP IsSourceLoad = 0 ∧
      (RunEvents m es).1.countP IsMethodLoad = es.length := by
  intro es
  induction es with
  | nil => intro m _ _; exact ⟨rfl, rfl⟩
  | cons e rest ih =>
    intro m hall hhit
    obtain ⟨hct, het, hiso, s, hs, hsid⟩ := hall e (by simp)
    have hhit2 : LookupCache m e.isolate s.id = some v := by
      rw [hiso, hsid]; exact hhit
    obtain ⟨h1, h2⟩ := logCodeEvent_hit hct het hs hhit2
    rw [hiso, hsid] at h2
    obtain ⟨f1, f2⟩ := ih (LogCodeEvent m e).2
      (fun e' he' => hall e' (List.mem_cons_of_mem _ he')) h2
    have step : RunEvents m (e :: rest) =
        ((LogCodeEvent m e).1 ++ (RunEvents (LogCodeEvent m e).2 rest).1,
          (RunEvents (LogCodeEvent m e).2 rest).2) := rfl
    rw [step]
    simp only [List.countP_append, h1, f1, f2]
    constructor
    · simp [List.countP_cons, IsSourceLoad]
    · simp [List.countP_cons, IsMethodLoad]
      omega

/-- C1: starting from a cache with no entry for `(isolate, script_id)`, a
sequence of `N ≥ 1` JIT code-added notifications all referencing that pair
makes the translator emit exactly one source-load event and exactly `N`
method-load events, and the source-load is the very first emitted event, so
it precedes every method-load. -/
theorem dedup_source_load (es : List JitCodeEvent) (iso sid : Nat)
    (m : ScriptMapType) (hne : es ≠ [])
    (hall : ∀ e ∈ es, SameScriptAdded iso sid e)
    (hmiss : LookupCache m iso sid = none) :
    (RunEvents m es).1.countP IsSourceLoad = 1 ∧
    (RunEvents m es).1.countP IsMethodLoad = es.length ∧
    (∃ url, (RunEvents m es).1.head? =
      some (EmittedEvent.sourceLoad sid iso 0 url)) := by
  match es, hne with
  | e :: rest, _ =>
    obtain ⟨hct, het, hiso, s, hs, hsid⟩ := hall e (by simp)
    have hmiss2 : LookupCache m e.isolate s.id = none := by
      rw [hiso, hsid]; exact hmiss
    obtain ⟨h1, h2⟩ := logCodeEvent_miss hct het hs hmiss2
    rw [hiso, hsid] at h1 h2
    obtain ⟨f1, f2⟩ := runEvents_hit iso sid (ResolveScriptName s.name) rest
      (LogCodeEvent m e).2 (fun e' he' => hall e' (List.mem_cons_of_mem _ he')) h2
    have step : RunEvents m (e :: rest) =
        ((LogCodeEvent m e).1 ++ (RunEvents (LogCodeEvent m e).2 rest).1,
          (RunEvents (LogCodeEvent m e).2 rest).2) := rfl
    rw [step]
    refine ⟨?_, ?_, ResolveScriptName s.name, ?_⟩
    · simp only [List.countP_append, h1, f1]
      simp [List.countP_cons, IsSourceLoad]
    · simp only [List.countP_append, h1, f2]
      simp [List.countP_cons, IsMethodLoad]
      omega
    · simp only [h1]
      rfl

/-- Closed instance of `dedup_source_load`: two code-added notifications for
isolate 1, script 7, with distinct method names, produce one source-load and
two method-loads, the source-load first. -/
theorem dedup_source_load_witness :
    (RunEvents []
      [⟨CodeType.JIT_CODE, EventType.CODE_ADDED, 1, 4096, 10, [0x66, 0x6F, 0x6F],
          some ⟨7, ScriptNameValue.str [0x61]⟩⟩,
       ⟨CodeType.JIT_CODE, EventType.CODE_ADDED, 1, 8192, 20, [0x62, 0x61, 0x72],
          some ⟨7, ScriptNameValue.str [0x61]⟩⟩]).1.countP IsSourceLoad = 1 ∧
    (RunEvents []
      [⟨CodeType.JIT_CODE, EventType.CODE_ADDED, 1, 4096, 10, [0x66, 0x6F, 0x6F],
          some ⟨7, ScriptNameValue.str [0x61]⟩⟩,
       ⟨CodeType.JIT_CODE, EventType.CODE_ADDED, 1, 8192, 20, [0x62, 0x61, 0x72],
          some ⟨7, ScriptNameValue.str [0x61]⟩⟩]).1.countP IsMethodLoad =
      ([⟨CodeType.JIT_CODE, EventType.CODE_ADDED, 1, 4096, 10, [0x66, 0x6F, 0x6F],
          some ⟨7, ScriptNameValue.str [0x61]⟩⟩,
        ⟨CodeType.JIT_CODE, EventType.CODE_ADDED, 1, 8192, 20, [0x62, 0x61, 0x72],
          some ⟨7, ScriptNameValue.str [0x61]⟩⟩] : List JitCodeEvent).length ∧
    (∃ url, (RunEvents []
      [⟨CodeType.JIT_CODE, EventType.CODE_ADDED, 1, 4096, 10, [0x66, 0x6F, 0x6F],
          some ⟨7, ScriptNameValue.str [0x61]⟩⟩,
       ⟨CodeType.JIT_CODE, EventType.CODE_ADDED, 1, 8192, 20, [0x62, 0x61, 0x72],
          some ⟨7, ScriptNameValue.str [0x61]⟩⟩]).1.head? =
      some (EmittedEvent.sourceLoad 7 1 0 url)) :=
  dedup_source_load
    [⟨CodeType.JIT_CODE, EventType.CODE_ADDED, 1, 4096, 10, [0x66, 0x6F, 0x6F],
        some ⟨7, ScriptNameValue.str [0x61]⟩⟩,
     ⟨CodeType.JIT_CODE, EventType.CODE_ADDED, 1, 8192, 20, [0x62, 0x61, 0x72],
        some ⟨7, ScriptNameValue.str [0x61]⟩⟩] 1 7 []
    (by simp)
    (by
      intro e he
      simp only [List.mem_cons, List.not_mem_nil, or_false] at he
      rcases he with rfl | rfl
      · exact ⟨rfl, rfl, rfl, ⟨7, ScriptNameValue.str [0x61]⟩, rfl, rfl⟩
      · exact ⟨rfl, rfl, rfl, ⟨7, ScriptNameValue.str [0x61]⟩, rfl, rfl⟩)
    rfl

/-- C10: `RegisterEtwProvider` always allocates a fresh, empty
isolate-to-script cache, replacing any existing one, while backend
registration stays latched (no second backend call); consequently a script
announced before a second `RegisterEtwProvider` call triggers a new
source-load event on its next code-added notification, processed against the
new empty cache. -/
theorem registerEtwProvider_resets_cache (w : V8ProviderWorld)
    (m : ScriptMapType) (iso sid : Nat) (v : List Nat) (e : JitCodeEvent)
    (s : ScriptHandle) (hr : Nat)
    (hmap : w.isolate_script_map = some m)
    (hold : LookupCache m iso sid = some v)
    (hlatch : w.reg.latch = some hr)
    (hct : e.code_type = CodeType.JIT_CODE) (het : e.type = EventType.CODE_ADDED)
    (hiso : e.isolate = iso) (hs : e.script = some s) (hsid : s.id = sid) :
    (RegisterEtwProvider w).isolate_script_map = some [] ∧
    (RegisterEtwProvider w).reg.backendRegs = w.reg.backendRegs ∧
    (LogCodeEvent [] e).1.countP IsSourceLoad = 1 ∧
    (LogCodeEvent [] e).1.head? =
      some (EmittedEvent.sourceLoad sid iso 0 (ResolveScriptName s.name)) := by
  refine ⟨rfl, (register_latched w.reg kProviderName hr hlatch).1, ?_, ?_⟩
  all_goals
    have hmiss : LookupCache ([] : ScriptMapType) e.isolate s.id = none := rfl
    obtain ⟨h1, -⟩ := logCodeEvent_miss hct het hs hmiss
    rw [hiso, hsid] at h1
    rw [h1]
  · simp [List.countP_cons, IsSourceLoad]
  · rfl

/-- Closed instance of `registerEtwProvider_resets_cache`: a provider whose
cache already holds script 7 of isolate 1 and whose registration is latched,
re-registered and then given a code-added notification for that script. -/
theorem registerEtwProvider_resets_cache_witness :
    (RegisterEtwProvider
      ⟨⟨⟨9, 1, 4, 0, []⟩, some 0, 1, 2⟩,
        some [(1, [(7, [0x61])])]⟩).isolate_script_map = some [] ∧
    (RegisterEtwProvider
      ⟨⟨⟨9, 1, 4, 0, []⟩, some 0, 1, 2⟩,
        some [(1, [(7, [0x61])])]⟩).reg.backendRegs =
      (⟨⟨⟨9, 1, 4, 0, []⟩, some 0, 1, 2⟩,
        some [(1, [(7, [0x61])])]⟩ : V8ProviderWorld).reg.backendRegs ∧
    (LogCodeEvent []
      ⟨CodeType.JIT_CODE, EventType.CODE_ADDED, 1, 4096, 10, [0x66, 0x6F, 0x6F],
        some ⟨7, ScriptNameValue.str [0x61]⟩⟩).1.countP IsSourceLoad = 1 ∧
    (LogCodeEvent []
      ⟨CodeType.JIT_CODE, EventType.CODE_ADDED, 1, 4096, 10, [0x66, 0x6F, 0x6F],
        some ⟨7, ScriptNameValue.str [0x61]⟩⟩).1.head? =
      some (EmittedEvent.sourceLoad 7 1 0
        (ResolveScriptName (ScriptNameValue.str [0x61]))) :=
  registerEtwProvider_resets_cache
    ⟨⟨⟨9, 1, 4, 0, []⟩, some 0, 1, 2⟩, some [(1, [(7, [0x61])])]⟩
    [(1, [(7, [0x61])])] 1 7 [0x61]
    ⟨CodeType.JIT_CODE, EventType.CODE_ADDED, 1, 4096, 10, [0x66, 0x6F, 0x6F],
      some ⟨7, ScriptNameValue.str [0x61]⟩⟩
    ⟨7, ScriptNameValue.str [0x61]⟩ 0 rfl rfl rfl rfl rfl rfl rfl rfl

/-- UTF-16 units of nonzero code points are nonzero (surrogate units are at
least 0xD800; single units equal the code point). -/
theorem utf16Encode_nonzero :
    ∀ cs : List Nat, (∀ c ∈ cs, c ≠ 0) → ∀ u ∈ Utf16Encode cs, u ≠ 0 := by
  intro cs
  induction cs with
  | nil => intro _ u hu; simp [Utf16Encode] at hu
  | cons c rest ih =>
    intro h u hu
    simp only [Utf16Encode, List.mem_append] at hu
    rcases hu with hu | hu
    · have hc : c ≠ 0 := h c (by simp)
      unfold Utf16EncodeChar at hu
      by_cases hclt : c < 0x10000
      · rw [if_pos hclt] at hu
        simp only [List.mem_singleton] at hu
        omega
      · rw [if_neg hclt] at hu
        simp only [List.mem_cons, List.not_mem_nil, or_false] at hu
        rcases hu with h | h <;> omega
    · exact ih (fun x hx => h x (by simp [hx])) u hu

/-- Decoding inverts UTF-16 encoding on sequences of Unicode scalar values. -/
theorem utf16_roundtrip :
    ∀ cs : List Nat, (∀ c ∈ cs, ScalarOk c) →
      Utf16Decode (Utf16Encode cs) = some cs := by
  intro cs
  induction cs with
  | nil => intro _; rfl
  | cons c rest ih =>
    intro h
    obtain ⟨hlt, hsur⟩ := h c (by simp)
    have ihr := ih (fun x hx => h x (by simp [hx]))
    by_cases hc : c < 0x10000
    · have henc : Utf16Encode (c :: rest) = c :: Utf16Encode rest := by
        simp [Utf16Encode, Utf16EncodeChar, hc]
      have hcond : c < 0xD800 ∨ 0xE000 ≤ c := by
        rcases Nat.lt_or_ge c 0xD800 with h1 | h1
        · exact Or.inl h1
        · right; by_contra h2; push_neg at h2; exact hsur ⟨h1, by omega⟩
      rw [henc, Utf16Decode.eq_def]
      simp only []
      rw [if_pos hcond, ihr]
      rfl
    · have hge : 0x10000 ≤ c := by omega
      have henc : Utf16Encode (c :: rest) =
          (0xD800 + (c - 0x10000) / 0x400) ::
            (0xDC00 + (c - 0x10000) % 0x400) :: Utf16Encode rest := by
        simp [Utf16Encode, Utf16EncodeChar, hc]
      have hqlt : (c - 0x10000) / 0x400 < 0x400 := by omega
      have hrlt : (c - 0x10000) % 0x400 < 0x400 := by omega
      have h1 : ¬(0xD800 + (c - 0x10000) / 0x400 < 0xD800 ∨
          0xE000 ≤ 0xD800 + (c - 0x10000) / 0x400) := by omega
      have h2 : 0xD800 + (c - 0x10000) / 0x400 < 0xDC00 := by omega
      have h3 : 0xDC00 ≤ 0xDC00 + (c - 0x10000) % 0x400 ∧
          0xDC00 + (c - 0x10000) % 0x400 < 0xE000 := by omega
      rw [henc, Utf16Decode.eq_def]
      simp only []
      rw [if_neg h1, if_pos h2, if_pos h3, ihr]
      have hrec : 0x10000 +
          (0xD800 + (c - 0x10000) / 0x400 - 0xD800) * 0x400 +
          (0xDC00 + (c - 0x10000) % 0x400 - 0xDC00) = c := by omega
      rw [hrec]
      rfl

/-- Decode-then-reencode identity for well-formed UTF-8, together with:
decoded code points are Unicode scalars, the UTF-16 rendering is never
longer than the byte span, and nonzero bytes decode to nonzero code
points.  Proved by strong induction through a fuel bound on the length. -/
theorem utf8_lossy_spec :
    ∀ (n : Nat) (bs : List Nat), bs.length ≤ n → Utf8Valid bs = true →
      Utf8Encode (Utf8DecodeLossy bs) = bs ∧
      (∀ c ∈ Utf8DecodeLossy bs, ScalarOk c) ∧
      (Utf16Encode (Utf8DecodeLossy bs)).length ≤ bs.length ∧
      ((∀ b ∈ bs, b ≠ 0) → ∀ c ∈ Utf8DecodeLossy bs, c ≠ 0) := by
  intro n
  induction n with
  | zero =>
    intro bs hlen hv
    have hbs : bs = [] := List.eq_nil_of_length_eq_zero (Nat.le_zero.mp hlen)
    subst hbs
    refine ⟨rfl, ?_, ?_, ?_⟩
    · intro c hc; cases hc
    · exact Nat.le_refl 0
    · intro _ c hc; cases hc
  | succ n ih =>
    intro bs hlen hv
    match bs with
    | [] =>
      refine ⟨rfl, ?_, ?_, ?_⟩
      · intro c hc; cases hc
      · exact Nat.zero_le 0
      · intro _ c hc; cases hc
    | b0 :: rest =>
      by_cases h1 : b0 < 0x80
      · have hv2 : Utf8Valid rest = true := by
          rw [Utf8Valid.eq_def] at hv
          simp only [] at hv
          rwa [if_pos h1] at hv
        obtain ⟨e1, e2, e3, e4⟩ := ih rest
          (by simp only [List.length_cons] at hlen; omega) hv2
        have hd : Utf8DecodeLossy (b0 :: rest) = b0 :: Utf8DecodeLossy rest := by
          rw [Utf8DecodeLossy.eq_def]
          simp only []
          rw [if_pos h1]
        have hu16 : Utf16EncodeChar b0 = [b0] := by
          unfold Utf16EncodeChar; rw [if_pos (by omega)]
        refine ⟨?_, ?_, ?_, ?_⟩
        · rw [hd]
          simp only [Utf8Encode]
          rw [e1]
          have he : Utf8EncodeChar b0 = [b0] := by
            unfold Utf8EncodeChar; rw [if_pos h1]
          rw [he]
          rfl
        · rw [hd]; intro c hc
          rcases List.mem_cons.mp hc with hceq | hc2
          · simp only [ScalarOk]; omega
          · exact e2 c hc2
        · rw [hd]
          simp only [Utf16Encode, hu16, List.length_append, List.length_cons,
            List.length_nil]
          simp only [List.length_cons] at hlen
          omega
        · rw [hd]; intro hnz c hc
          rcases List.mem_cons.mp hc with hceq | hc2
          · have hb := hnz b0 (by simp)
            omega
          · exact e4 (fun b hb => hnz b (by simp [hb])) c hc2
      · by_cases hlead : 0xC0 ≤ b0 ∧ b0 < 0xF8
        · cases rest with
          | nil =>
            exfalso
            rw [Utf8Valid.eq_def] at hv
            simp only [] at hv
            rw [if_neg h1, if_neg (not_not_intro hlead)] at hv
            exact Bool.false_ne_true hv
          | cons b1 rest1 =>
            by_cases h2 : 0xC0 ≤ b0 ∧ b0 < 0xE0
            · rw [Utf8Valid.eq_def] at hv
              simp only [] at hv
              rw [if_neg h1, if_neg (not_not_intro hlead), if_pos h2] at hv
              rw [Bool.and_eq_true, decide_eq_true_eq] at hv
              obtain ⟨hc, hv2⟩ := hv
              obtain ⟨e1, e2, e3, e4⟩ := ih rest1
                (by simp only [List.length_cons] at hlen; omega) hv2
              have hd : Utf8DecodeLossy (b0 :: b1 :: rest1) =
                  ((b0 - 0xC0) * 0x40 + (b1 - 0x80)) :: Utf8DecodeLossy rest1 := by
                rw [Utf8DecodeLossy.eq_def]
                simp only []
                rw [if_neg h1, if_neg (not_not_intro hlead), if_pos h2, if_pos hc]
              have hcl : (b0 - 0xC0) * 0x40 + (b1 - 0x80) < 0x800 := by omega
              have henc : Utf8EncodeChar ((b0 - 0xC0) * 0x40 + (b1 - 0x80)) =
                  [b0, b1] := by
                unfold Utf8EncodeChar
                rw [if_neg (by omega), if_pos hcl]
                have q1 : 0xC0 + ((b0 - 0xC0) * 0x40 + (b1 - 0x80)) / 0x40 = b0 := by
                  omega
                have q2 : 0x80 + ((b0 - 0xC0) * 0x40 + (b1 - 0x80)) % 0x40 = b1 := by
                  omega
                rw [q1, q2]
              have hu16 : Utf16EncodeChar ((b0 - 0xC0) * 0x40 + (b1 - 0x80)) =
                  [(b0 - 0xC0) * 0x40 + (b1 - 0x80)] := by
                unfold Utf16EncodeChar; rw [if_pos (by omega)]
              refine ⟨?_, ?_, ?_, ?_⟩
              · rw [hd]
                simp only [Utf8Encode]
                rw [e1, henc]
                rfl
              · rw [hd]; intro c hcm
                rcases List.mem_cons.mp hcm with hceq | hc2
                · simp only [ScalarOk]; omega
                · exact e2 c hc2
              · rw [hd]
                simp only [Utf16Encode, hu16, List.length_append, List.length_cons,
                  List.length_nil]
                simp only [List.length_cons] at hlen
                omega
              · rw [hd]; intro hnz c hcm
                rcases List.mem_cons.mp hcm with hceq | hc2
                · omega
                · exact e4 (fun b hb => hnz b (by simp [hb])) c hc2
            · cases rest1 with
              | nil =>
                exfalso
                rw [Utf8Valid.eq_def] at hv
                simp only [] at hv
                rw [if_neg h1, if_neg (not_not_intro hlead), if_neg h2] at hv
                exact Bool.false_ne_true hv
              | cons b2 rest2 =>
                by_cases h3 : 0xE0 ≤ b0 ∧ b0 < 0xF0
                · rw [Utf8Valid.eq_def] at hv
                  simp only [] at hv
                  rw [if_neg h1, if_neg (not_not_intro hlead), if_neg h2,
                    if_pos h3] at hv
                  rw [Bool.and_eq_true, decide_eq_true_eq] at hv
                  obtain ⟨⟨hb1, hb2, hcg, hsur⟩, hv2⟩ := hv
                  obtain ⟨e1, e2, e3, e4⟩ := ih rest2
                    (by simp only [List.length_cons] at hlen; omega) hv2
                  have hd : Utf8DecodeLossy (b0 :: b1 :: b2 :: rest2) =
                      ((b0 - 0xE0) * 0x1000 + (b1 - 0x80) * 0x40 + (b2 - 0x80)) ::
                        Utf8DecodeLossy rest2 := by
                    rw [Utf8DecodeLossy.eq_def]
                    simp only []
                    rw [if_neg h1, if_neg (not_not_intro hlead), if_neg h2,
                      if_pos h3, if_pos ⟨hb1, hb2, hcg, hsur⟩]
                  have hcl : (b0 - 0xE0) * 0x1000 + (b1 - 0x80) * 0x40 + (b2 - 0x80) <
                      0x10000 := by omega
                  have henc : Utf8EncodeChar
                      ((b0 - 0xE0) * 0x1000 + (b1 - 0x80) * 0x40 + (b2 - 0x80)) =
                      [b0, b1, b2] := by
                    unfold Utf8EncodeChar
                    rw [if_neg (by omega), if_neg (by omega), if_pos hcl]
                    have q1 : 0xE0 +
                        ((b0 - 0xE0) * 0x1000 + (b1 - 0x80) * 0x40 + (b2 - 0x80)) /
                          0x1000 = b0 := by omega
                    have q2 : 0x80 +
                        ((b0 - 0xE0) * 0x1000 + (b1 - 0x80) * 0x40 + (b2 - 0x80)) /
                          0x40 % 0x40 = b1 := by omega
                    have q3 : 0x80 +
                        ((b0 - 0xE0) * 0x1000 + (b1 - 0x80) * 0x40 + (b2 - 0x80)) %
                          0x40 = b2 := by omega
                    rw [q1, q2, q3]
                  have hu16 : Utf16EncodeChar
                      ((b0 - 0xE0) * 0x1000 + (b1 - 0x80) * 0x40 + (b2 - 0x80)) =
                      [(b0 - 0xE0) * 0x1000 + (b1 - 0x80) * 0x40 + (b2 - 0x80)] := by
                    unfold Utf16EncodeChar; rw [if_pos hcl]
                  refine ⟨?_, ?_, ?_, ?_⟩
                  · rw [hd]
                    simp only [Utf8Encode]
                    rw [e1, henc]
                    rfl
                  · rw [hd]; intro c hcm
                    rcases List.mem_cons.mp hcm with hceq | hc2
                    · simp only [ScalarOk]; omega
                    · exact e2 c hc2
                  · rw [hd]
                    simp only [Utf16Encode, hu16, List.length_append,
                      List.length_cons, List.length_nil]
                    simp only [List.length_cons] at hlen
                    omega
                  · rw [hd]; intro hnz c hcm
                    rcases List.mem_cons.mp hcm with hceq | hc2
                    · omega
                    · exact e4 (fun b hb => hnz b (by simp [hb])) c hc2
                · cases rest2 with
                  | nil =>
                    exfalso
                    rw [Utf8Valid.eq_def] at hv
                    simp only [] at hv
                    rw [if_neg h1, if_neg (not_not_intro hlead), if_neg h2,
                      if_neg h3] at hv
                    exact Bool.false_ne_true hv
                  | cons b3 rest3 =>
                    rw [Utf8Valid.eq_def] at hv
                    simp only [] at hv
                    rw [if_neg h1, if_neg (not_not_intro hlead), if_neg h2,
                      if_neg h3] at hv
                    rw [Bool.and_eq_true, decide_eq_true_eq] at hv
                    obtain ⟨⟨hb1, hb2, hb3, hcg, hcl⟩, hv2⟩ := hv
                    obtain ⟨e1, e2, e3, e4⟩ := ih rest3
                      (by simp only [List.length_cons] at hlen; omega) hv2
                    have hd : Utf8DecodeLossy (b0 :: b1 :: b2 :: b3 :: rest3) =
                        ((b0 - 0xF0) * 0x40000 + (b1 - 0x80) * 0x1000 +
                          (b2 - 0x80) * 0x40 + (b3 - 0x80)) ::
                          Utf8DecodeLossy rest3 := by
                      rw [Utf8DecodeLossy.eq_def]
                      simp only []
                      rw [if_neg h1, if_neg (not_not_intro hlead), if_neg h2,
                        if_neg h3, if_pos ⟨hb1, hb2, hb3, hcg, hcl⟩]
                    have henc : Utf8EncodeChar
                        ((b0 - 0xF0) * 0x40000 + (b1 - 0x80) * 0x1000 +
                          (b2 - 0x80) * 0x40 + (b3 - 0x80)) = [b0, b1, b2, b3] := by
                      unfold Utf8EncodeChar
                      rw [if_neg (by omega), if_neg (by omega), if_neg (by omega)]
                      have q1 : 0xF0 +
                          ((b0 - 0xF0) * 0x40000 + (b1 - 0x80) * 0x1000 +
                            (b2 - 0x80) * 0x40 + (b3 - 0x80)) / 0x40000 = b0 := by
                        omega
                      have q2 : 0x80 +
                          ((b0 - 0xF0) * 0x40000 + (b1 - 0x80) * 0x1000 +
                            (b2 - 0x80) * 0x40 + (b3 - 0x80)) / 0x1000 % 0x40 =
                          b1 := by omega
                      have q3 : 0x80 +
                          ((b0 - 0xF0) * 0x40000 + (b1 - 0x80) * 0x1000 +
                            (b2 - 0x80) * 0x40 + (b3 - 0x80)) / 0x40 % 0x40 =
                          b2 := by omega
                      have q4 : 0x80 +
                          ((b0 - 0xF0) * 0x40000 + (b1 - 0x80) * 0x1000 +
                            (b2 - 0x80) * 0x40 + (b3 - 0x80)) % 0x40 = b3 := by
                        omega
                      rw [q1, q2, q3, q4]
                    have hu16 : (Utf16EncodeChar
                        ((b0 - 0xF0) * 0x40000 + (b1 - 0x80) * 0x1000 +
                          (b2 - 0x80) * 0x40 + (b3 - 0x80))).length = 2 := by
                      unfold Utf16EncodeChar
                      rw [if_neg (by omega)]
                      rfl
                    refine ⟨?_, ?_, ?_, ?_⟩
                    · rw [hd]
                      simp only [Utf8Encode]
                      rw [e1, henc]
                      rfl
                    · rw [hd]; intro c hcm
                      rcases List.mem_cons.mp hcm with hceq | hc2
                      · simp only [ScalarOk]; omega
                      · exact e2 c hc2
                    · rw [hd]
                      simp only [Utf16Encode, List.length_append, hu16,
                        List.length_cons]
                      simp only [List.length_cons] at hlen
                      omega
                    · rw [hd]; intro hnz c hcm
                      rcases List.mem_cons.mp hcm with hceq | hc2
                      · omega
                      · exact e4 (fun b hb => hnz b (by simp [hb])) c hc2
        · exfalso
          rw [Utf8Valid.eq_def] at hv
          simp only [] at hv
          rw [if_neg h1, if_pos hlead] at hv
          exact Bool.false_ne_true hv


/-- Reading a wide buffer as a null-terminated string stops exactly at the
padding when the written units are all nonzero. -/
theorem takeWhile_units (us pad : List Nat) (h : ∀ u ∈ us, u ≠ 0) :
    List.takeWhile (fun u => decide (u ≠ 0)) (us ++ 0 :: pad) = us := by
  induction us with
  | nil =>
    simp only [List.nil_append]
    exact List.takeWhile_cons_of_neg (by simp)
  | cons a l ih =>
    have ha : a ≠ 0 := h a (by simp)
    rw [List.cons_append,
      List.takeWhile_cons_of_pos (by simpa using ha),
      ih (fun u hu => h u (by simp [hu]))]

/-- C7: for a code-added notification whose raw name is a well-formed,
NUL-free UTF-8 byte span, the wide name buffer built by `LogCodeEvent` is
null-terminated with the decoded units at the front and exact length
`name_len + 1`; the decoded wide string (the buffer read up to its
terminator) is exactly the UTF-16 decoding of the span, and re-encoding it
to UTF-8 reproduces the original bytes exactly (a round-trip). -/
theorem methodLoad_name_roundtrip (bs : List Nat)
    (hvalid : Utf8Valid bs = true) (hnz : ∀ b ∈ bs, b ≠ 0) :
    List.takeWhile (fun u => decide (u ≠ 0)) (MethodNameBuffer bs) =
      MultiByteToWideChar bs ∧
    (MethodNameBuffer bs).length = bs.length + 1 ∧
    (∃ cps, Utf16Decode (MultiByteToWideChar bs) = some cps ∧
      Utf8Encode cps = bs) := by
  obtain ⟨e1, e2, e3, e4⟩ := utf8_lossy_spec bs.length bs le_rfl hvalid
  have hunz : ∀ u ∈ MultiByteToWideChar bs, u ≠ 0 :=
    utf16Encode_nonzero (Utf8DecodeLossy bs) (e4 hnz)
  have hlen : (MultiByteToWideChar bs).length ≤ bs.length := e3
  refine ⟨?_, ?_, Utf8DecodeLossy bs, ?_, e1⟩
  · unfold MethodNameBuffer
    have hk : bs.length + 1 - (MultiByteToWideChar bs).length =
        (bs.length - (MultiByteToWideChar bs).length) + 1 := by omega
    rw [hk, List.replicate_succ]
    exact takeWhile_units _ _ hunz
  · unfold MethodNameBuffer
    simp only [List.length_append, List.length_replicate]
    omega
  · exact utf16_roundtrip (Utf8DecodeLossy bs) e2

/-- Closed instance of `methodLoad_name_roundtrip` on the byte span of
`"fé"` (`0x66 0xC3 0xA9`), a two-character, three-byte UTF-8 name. -/
theorem methodLoad_name_roundtrip_witness :
    List.takeWhile (fun u => decide (u ≠ 0)) (MethodNameBuffer [0x66, 0xC3, 0xA9]) =
      MultiByteToWideChar [0x66, 0xC3, 0xA9] ∧
    (MethodNameBuffer [0x66, 0xC3, 0xA9]).length =
      ([0x66, 0xC3, 0xA9] : List Nat).length + 1 ∧
    (∃ cps, Utf16Decode (MultiByteToWideChar [0x66, 0xC3, 0xA9]) = some cps ∧
      Utf8Encode cps = [0x66, 0xC3, 0xA9]) :=
  methodLoad_name_roundtrip [0x66, 0xC3, 0xA9] (by decide) (by decide)

/-- Closed instance of `callback_spec` at a concrete prior state. -/
theorem callback_spec_witness :
    (Callback ⟨7, 1, 5, 0xFF, [2]⟩ 1 4 3 9 =
      { regHandle := 7, enabled := 1, level := 4, keywords := 3,
        provider_trait := [2] }) ∧
    (Callback ⟨7, 1, 5, 0xFF, [2]⟩ 0 4 3 9 =
      { regHandle := 7, enabled := 0, level := 0, keywords := 0,
        provider_trait := [2] }) ∧
    (∀ ps, ps ≠ 0 → ps ≠ 1 → Callback ⟨7, 1, 5, 0xFF, [2]⟩ ps 4 3 9 =
      ⟨7, 1, 5, 0xFF, [2]⟩) ∧
    (∀ e : EventInfo, e.level ≠ 0 → e.keywords ≠ 0 →
      IsEnabledEvent (Callback ⟨7, 1, 5, 0xFF, [2]⟩ 0 4 3 9) e = false) :=
  callback_spec ⟨7, 1, 5, 0xFF, [2]⟩ 4 3 9

end V8Etw
